import Mathlib

/-
Verification development for the benchmark aggregation and reporting
pipeline of the linux-laptop-power repository: the CSV metrics parser,
the mean/peak aggregator, the battery/AC bucket reduction, the Markdown
report renderer (generate_report.py) and the chart y-axis scaling and
system-info extraction of compare_results.py.

Python floats are modelled as rationals (ℚ); the arithmetic the claims
exercise (sums, division by a length, max, scaling by 1.2) is exact on
the inputs involved.  Python exceptions are modelled with an explicit
Except channel; csv.DictReader row access is modelled including its
restval-None behaviour for short rows.
-/

namespace PowerBench

set_option maxRecDepth 100000

/-- Python exception classes the scripts can raise or catch. -/
inductive PyExc where
  | valueError
  | keyError
  | typeError
deriving DecidableEq, Repr

/-- Whether an Except-modelled Python computation returned without raising. -/
def isOkE {α : Type} : Except PyExc α → Bool
  | .ok _ => true
  | .error _ => false

/-- Python str.strip(): drop leading and trailing whitespace characters. -/
def trimL (cs : List Char) : List Char :=
  ((cs.dropWhile Char.isWhitespace).reverse.dropWhile Char.isWhitespace).reverse

/-- Value of a list of decimal digit characters. -/
def digitsToNat (ds : List Char) : Nat :=
  ds.foldl (fun n c => 10 * n + (c.toNat - 48)) 0

/-- Model of the Python builtin float() on ordinary decimal literals:
optional surrounding whitespace, an optional sign, digits with an optional
fractional part ("10", "-3.5", "12.", ".5").  Exotic literal forms
(exponents, inf, nan, digit underscores) are outside the modelled subset;
no claim depends on them.  Returns none exactly where float() raises
ValueError on this subset. -/
def pyFloat (s : String) : Option ℚ :=
  let cs := trimL s.toList
  let signBody : ℚ × List Char :=
    match cs with
    | '+' :: r => (1, r)
    | '-' :: r => (-1, r)
    | r => (1, r)
  let sign := signBody.1
  let body := signBody.2
  let intPart := body.takeWhile Char.isDigit
  let rest := body.dropWhile Char.isDigit
  match rest with
  | [] =>
    if intPart.isEmpty then none
    else some (sign * (digitsToNat intPart : ℚ))
  | '.' :: r =>
    let frac := r.takeWhile Char.isDigit
    let rest2 := r.dropWhile Char.isDigit
    if rest2.isEmpty then
      if intPart.isEmpty && frac.isEmpty then none
      else some (sign * ((digitsToNat intPart : ℚ) +
        (digitsToNat frac : ℚ) / (10 : ℚ) ^ frac.length))
    else none
  | _ => none

/-- The fixed metric fields tracked per phase.  generate_report.py tracks the
first nine; compare_results.py additionally tracks cpu_freq and
context_switches. -/
inductive Metric where
  | power | cpu | temp | mem | load
  | disk_read | disk_write | net_rx | net_tx
  | cpu_freq | context_switches
deriving DecidableEq, Repr

/-- Per-phase data: one ordered value sequence per fixed metric field.  This is
the defaultdict value dict of parse_csv; every fixed key is always present. -/
structure PhaseData where
  power : List ℚ
  cpu : List ℚ
  temp : List ℚ
  mem : List ℚ
  load : List ℚ
  disk_read : List ℚ
  disk_write : List ℚ
  net_rx : List ℚ
  net_tx : List ℚ
  cpu_freq : List ℚ
  context_switches : List ℚ
deriving DecidableEq, Repr

/-- The fresh dict created by the defaultdict factory: every fixed metric key
mapped to an empty list. -/
def PhaseData.empty : PhaseData :=
  ⟨[], [], [], [], [], [], [], [], [], [], []⟩

/-- Read one metric field's sequence. -/
def PhaseData.get (d : PhaseData) : Metric → List ℚ
  | .power => d.power
  | .cpu => d.cpu
  | .temp => d.temp
  | .mem => d.mem
  | .load => d.load
  | .disk_read => d.disk_read
  | .disk_write => d.disk_write
  | .net_rx => d.net_rx
  | .net_tx => d.net_tx
  | .cpu_freq => d.cpu_freq
  | .context_switches => d.context_switches

/-- Replace one metric field's sequence. -/
def PhaseData.set (d : PhaseData) : Metric → List ℚ → PhaseData
  | .power, l => ⟨l, d.cpu, d.temp, d.mem, d.load, d.disk_read, d.disk_write,
      d.net_rx, d.net_tx, d.cpu_freq, d.context_switches⟩
  | .cpu, l => ⟨d.power, l, d.temp, d.mem, d.load, d.disk_read, d.disk_write,
      d.net_rx, d.net_tx, d.cpu_freq, d.context_switches⟩
  | .temp, l => ⟨d.power, d.cpu, l, d.mem, d.load, d.disk_read, d.disk_write,
      d.net_rx, d.net_tx, d.cpu_freq, d.context_switches⟩
  | .mem, l => ⟨d.power, d.cpu, d.temp, l, d.load, d.disk_read, d.disk_write,
      d.net_rx, d.net_tx, d.cpu_freq, d.context_switches⟩
  | .load, l => ⟨d.power, d.cpu, d.temp, d.mem, l, d.disk_read, d.disk_write,
      d.net_rx, d.net_tx, d.cpu_freq, d.context_switches⟩
  | .disk_read, l => ⟨d.power, d.cpu, d.temp, d.mem, d.load, l, d.disk_write,
      d.net_rx, d.net_tx, d.cpu_freq, d.context_switches⟩
  | .disk_write, l => ⟨d.power, d.cpu, d.temp, d.mem, d.load, d.disk_read, l,
      d.net_rx, d.net_tx, d.cpu_freq, d.context_switches⟩
  | .net_rx, l => ⟨d.power, d.cpu, d.temp, d.mem, d.load, d.disk_read,
      d.disk_write, l, d.net_tx, d.cpu_freq, d.context_switches⟩
  | .net_tx, l => ⟨d.power, d.cpu, d.temp, d.mem, d.load, d.disk_read,
      d.disk_write, d.net_rx, l, d.cpu_freq, d.context_switches⟩
  | .cpu_freq, l => ⟨d.power, d.cpu, d.temp, d.mem, d.load, d.disk_read,
      d.disk_write, d.net_rx, d.net_tx, l, d.context_switches⟩
  | .context_switches, l => ⟨d.power, d.cpu, d.temp, d.mem, d.load, d.disk_read,
      d.disk_write, d.net_rx, d.net_tx, d.cpu_freq, l⟩

/-- phases[phase][metric].append(value). -/
def PhaseData.app (d : PhaseData) (m : Metric) (q : ℚ) : PhaseData :=
  d.set m (d.get m ++ [q])

/-- target[metric].extend(values) for every fixed metric, as the bucket
reductions do. -/
def PhaseData.extendAll (a b : PhaseData) : PhaseData :=
  ⟨a.power ++ b.power, a.cpu ++ b.cpu, a.temp ++ b.temp, a.mem ++ b.mem,
   a.load ++ b.load, a.disk_read ++ b.disk_read, a.disk_write ++ b.disk_write,
   a.net_rx ++ b.net_rx, a.net_tx ++ b.net_tx, a.cpu_freq ++ b.cpu_freq,
   a.context_switches ++ b.context_switches⟩

/-- The input table: a header row of column names and the data rows, each a
list of cell texts.  Extra cells beyond the header are ignored by DictReader
(restkey) and short rows are padded with the restval None. -/
structure Table where
  header : List String
  rows : List (List String)
deriving DecidableEq, Repr

/-- Index of the last occurrence of a key in the header, mirroring how
duplicate fieldnames resolve in the dict DictReader builds. -/
def lastIdxOf (k : String) : List String → Option Nat
  | [] => none
  | a :: as =>
    match lastIdxOf k as with
    | some i => some (i + 1)
    | none => if a == k then some 0 else none

/-- row[k] as csv.DictReader presents a row: KeyError when column k is not in
the header; the restval None (here: Option.none) when the row is shorter than
the header at that column; otherwise the cell text. -/
def dictGet (hdr cells : List String) (k : String) : Except PyExc (Option String) :=
  match lastIdxOf k hdr with
  | none => .error .keyError
  | some i => .ok (cells.get? i)

/-- float(row[k]) for one required metric column: KeyError when the column is
absent from the header, TypeError when the cell is the restval None (short
row), ValueError when the text does not convert, otherwise the value. -/
def convCell (hdr cells : List String) (k : String) : Except PyExc ℚ :=
  match dictGet hdr cells k with
  | .error e => .error e
  | .ok none => .error .typeError
  | .ok (some s) =>
    match pyFloat s with
    | none => .error .valueError
    | some q => .ok q

/-- The body of the per-row try block: one append per required field, in the
fixed source order.  ValueError and KeyError are caught by the except clause,
which abandons the rest of the row but keeps the appends already made;
TypeError is not caught and propagates out of parse_csv. -/
def processFields (hdr cells : List String) :
    List (Metric × String) → PhaseData → Except PyExc PhaseData
  | [], d => .ok d
  | (m, k) :: fs, d =>
    match convCell hdr cells k with
    | .ok q => processFields hdr cells fs (d.app m q)
    | .error .typeError => .error .typeError
    | .error _ => .ok d

/-- The field/value pairs of the longest prefix of the required-field list
whose conversions all succeed on this row, stopping at the first failing
field. -/
def admittedFields (hdr cells : List String) :
    List (Metric × String) → List (Metric × ℚ)
  | [] => []
  | (m, k) :: fs =>
    match convCell hdr cells k with
    | .ok q => (m, q) :: admittedFields hdr cells fs
    | .error _ => []

/-- Append a list of field/value pairs into a phase dict in order. -/
def appAll (d : PhaseData) (l : List (Metric × ℚ)) : PhaseData :=
  l.foldl (fun a p => a.app p.1 p.2) d

/-- The phase mapping parse_csv builds: insertion-ordered, keyed by the value
of row["phase"], which is the restval None for a row too short to reach the
phase column. -/
abbrev RawPhases := List (Option String × PhaseData)

/-- Association lookup in the phase dict. -/
def lookupPh : RawPhases → Option String → Option PhaseData
  | [], _ => none
  | (k, d) :: rest, key => if k = key then some d else lookupPh rest key

/-- Python dict assignment: update in place, or append a new key at the end
(insertion order). -/
def setPh : RawPhases → Option String → PhaseData → RawPhases
  | [], key, d => [(key, d)]
  | (k, d0) :: rest, key, d =>
    if k = key then (k, d) :: rest else (k, d0) :: setPh rest key d

/-- The row loop of parse_csv.  phase = row["phase"] sits outside the try
block, so its KeyError propagates; the defaultdict entry for the phase is
created (phases[phase]) before the first conversion is attempted, so it
exists even when every conversion of the row fails. -/
def parseRows (fields : List (Metric × String)) (hdr : List String) :
    List (List String) → RawPhases → Except PyExc RawPhases
  | [], acc => .ok acc
  | cells :: rest, acc =>
    match dictGet hdr cells "phase" with
    | .error e => .error e
    | .ok ph =>
      match processFields hdr cells fields ((lookupPh acc ph).getD PhaseData.empty) with
      | .error e => .error e
      | .ok d => parseRows fields hdr rest (setPh acc ph d)

/-- parse_csv: aggregate metrics by phase.  csv.DictReader skips blank rows
(empty cell lists) before they reach the loop body. -/
def parse_csv (fields : List (Metric × String)) (t : Table) : Except PyExc RawPhases :=
  parseRows fields t.header (t.rows.filter (fun r => !r.isEmpty)) []

/-- The required columns of generate_report.py's parse_csv, in source order. -/
def reportFields : List (Metric × String) :=
  [(.power, "power_w"), (.cpu, "cpu_pct"), (.temp, "cpu_temp_c"),
   (.mem, "mem_pct"), (.load, "load_1m"), (.disk_read, "disk_read_mbs"),
   (.disk_write, "disk_write_mbs"), (.net_rx, "net_rx_kbs"),
   (.net_tx, "net_tx_kbs")]

/-- The required columns of compare_results.py's parse_csv, in source order. -/
def compareFields : List (Metric × String) :=
  reportFields ++ [(.cpu_freq, "cpu_freq_mhz"), (.context_switches, "context_switches")]

/-- avg: sum(lst) / len(lst) if lst else 0. -/
def avg (l : List ℚ) : ℚ :=
  if l.isEmpty then 0 else l.sum / (l.length : ℚ)

/-- peak: max(lst) if lst else 0. -/
def peak : List ℚ → ℚ
  | [] => 0
  | v :: vs => vs.foldl max v

/-- Python prefix test on character lists (str.startswith). -/
def isPrefixB : List Char → List Char → Bool
  | [], _ => true
  | _ :: _, [] => false
  | a :: as, b :: bs => a == b && isPrefixB as bs

/-- Python substring membership test on character lists. -/
def isInfixB (n : List Char) : List Char → Bool
  | [] => n.isEmpty
  | c :: cs => isPrefixB n (c :: cs) || isInfixB n cs

/-- The Python test `needle in hay` on strings. -/
def strIn (needle hay : String) : Bool :=
  isInfixB needle.toList hay.toList

/-- aggregate_by_power_mode of compare_results.py: every phase whose name
contains "_bat" is extended into the battery bucket, every other phase into
the AC bucket.  Keys are the phase-name strings of the dict being iterated
(a None key would raise TypeError at the membership test; the renderer model
carries that channel, see filterPhasesE). -/
def aggregate_by_power_mode (phases : List (String × PhaseData)) :
    PhaseData × PhaseData :=
  phases.foldl
    (fun bkac p =>
      if strIn "_bat" p.1 then (bkac.1.extendAll p.2, bkac.2)
      else (bkac.1, bkac.2.extendAll p.2))
    (PhaseData.empty, PhaseData.empty)

/-- The dict comprehension {k: v for k, v in phases.items() if needle in k}
of generate_report.py, over the raw parse output: evaluating `needle in k`
on a None key raises TypeError. -/
def filterPhasesE (needle : String) :
    RawPhases → Except PyExc (List (String × PhaseData))
  | [] => .ok []
  | (none, _) :: _ => .error .typeError
  | (some k, d) :: rest =>
    match filterPhasesE needle rest with
    | .error e => .error e
    | .ok r => .ok (if strIn needle k then (k, d) :: r else r)

/-- The all_battery / all_ac accumulation: extend every metric list of every
phase of the (already filtered) dict into one bucket, in dict order. -/
def bucketAll (l : List (String × PhaseData)) : PhaseData :=
  l.foldl (fun acc p => acc.extendAll p.2) PhaseData.empty

/-- The y-axis upper bound set by create_comparison_charts:
ax.set_ylim(0, max(values) * 1.2 if values else 1), with 1.2 as the exact
rational 6/5. -/
def set_ylim_upper (values : List ℚ) : ℚ :=
  match values with
  | [] => 1
  | v :: vs => (vs.foldl max v) * (6 / 5)

/-- Maximum of a nonempty list of rationals, written as a plain structural
recursion, used to state what the chart axis bound computes. -/
def listMaxQ : List ℚ → ℚ
  | [] => 0
  | [v] => v
  | v :: vs => max v (listMaxQ vs)

/-- Python str.split(sep) for a one-character separator: splits on every
occurrence and keeps empty pieces, so the result always has one more piece
than there are separators. -/
def splitChar (sep : Char) : List Char → List (List Char)
  | [] => [[]]
  | c :: rest =>
    let r := splitChar sep rest
    if c == sep then [] :: r
    else
      match r with
      | h :: t => (c :: h) :: t
      | [] => [[c]]

/-- The run metadata get_run_info extracts from system_info.txt. -/
structure RunInfo where
  de : String
  run_type : String
deriving DecidableEq, Repr

/-- line.split(":")[1].strip() — the value get_run_info takes from a matched
line.  The prefix guard guarantees the line contains a colon, so index 1
exists; getD models the in-context total lookup. -/
def extractVal (line : List Char) : String :=
  String.mk (trimL ((splitChar ':' line).getD 1 []))

/-- One line of the get_run_info loop: two independent startswith tests, the
second seeing the record possibly updated by the first. -/
def runInfoStep (info : RunInfo) (line : List Char) : RunInfo :=
  let i1 : RunInfo :=
    if isPrefixB "Desktop:".toList line then ⟨extractVal line, info.run_type⟩
    else info
  if isPrefixB "Run Type:".toList line then ⟨i1.de, extractVal line⟩
  else i1

/-- get_run_info of compare_results.py, applied to the text of
system_info.txt: fold the line handler over content.split("\n") starting
from the defaults. -/
def get_run_info (content : String) : RunInfo :=
  (splitChar '\n' content.toList).foldl runInfoStep ⟨"Unknown", "unknown"⟩

/-- Text between the first colon of a line and the next colon (or the end of
the line).  This is the independent description against which the extracted
run-info value is compared. -/
def betweenColons (cs : List Char) : List Char :=
  ((cs.dropWhile (fun c => !(c == ':'))).drop 1).takeWhile (fun c => !(c == ':'))

/-- Round to the nearest integer, ties to even, the rule Python applies when
formatting a float with a fixed number of decimals. -/
def roundHalfEven (q : ℚ) : ℤ :=
  let f : ℤ := ⌊q⌋
  let r : ℚ := q - (f : ℚ)
  if r < 1 / 2 then f
  else if 1 / 2 < r then f + 1
  else if f % 2 = 0 then f else f + 1

/-- The format specifier .{prec}f on a (rational-modelled) float: round at the
requested number of decimals and print with exactly that many fractional
digits.  The negative-zero sign Python keeps ("-0.00") is outside the model;
no claim evaluates it there. -/
def formatFixed (prec : Nat) (q : ℚ) : String :=
  let n : ℤ := roundHalfEven (q * (10 : ℚ) ^ prec)
  let s := toString n.natAbs
  let s := if s.length < prec + 1 then
      String.mk (List.replicate (prec + 1 - s.length) '0') ++ s
    else s
  let intLen := s.length - prec
  (if n < 0 then "-" else "") ++ s.take intLen ++
    (if prec = 0 then "" else "." ++ s.drop intLen)

/-- The table header the report uses for both per-phase sections. -/
def tableHeaderText : String :=
  "| Phase | Avg Power (W) | Peak Power (W) | Avg CPU (%) | Avg Temp (°C) | Avg Mem (%) |\n|-------|--------------|----------------|-------------|---------------|-------------|\n"

/-- phase_names.get(key, key): the display-name mapping of generate_report. -/
def phase_names (k : String) : String :=
  if k = "light_bat" then "Light (Battery)"
  else if k = "medium_bat" then "Medium-Heavy (Battery)"
  else if k = "heavy_bat" then "Heavy (Battery)"
  else if k = "ultra_bat" then "Ultra-Heavy (Battery)"
  else if k = "light_ac" then "Light (AC)"
  else if k = "medium_ac" then "Medium-Heavy (AC)"
  else if k = "heavy_ac" then "Heavy (AC)"
  else if k = "ultra_ac" then "Ultra-Heavy (AC)"
  else k

/-- Association lookup in a filtered (string-keyed) phase dict. -/
def lookupStr : List (String × PhaseData) → String → Option PhaseData
  | [], _ => none
  | (k, d) :: rest, key => if k = key then some d else lookupStr rest key

/-- One data row of a per-phase summary table. -/
def phaseRowText (k : String) (d : PhaseData) : String :=
  "| " ++ phase_names k ++ " | " ++ formatFixed 2 (avg d.power) ++ " | " ++
    formatFixed 2 (peak d.power) ++ " | " ++ formatFixed 1 (avg d.cpu) ++
    " | " ++ formatFixed 1 (avg d.temp) ++ " | " ++ formatFixed 1 (avg d.mem) ++
    " |\n"

/-- The loop emitting one row per canonical phase key present in the filtered
dict, silently skipping absent keys. -/
def phaseRowsText (m : List (String × PhaseData)) (keys : List String) : String :=
  keys.foldl
    (fun s k =>
      s ++ match lookupStr m k with
      | some d => phaseRowText k d
      | none => "")
    ""

/-- The canonical battery phase ordering of the report. -/
def batteryKeys : List String := ["light_bat", "medium_bat", "heavy_bat", "ultra_bat"]

/-- The canonical AC phase ordering of the report. -/
def acKeys : List String := ["light_ac", "medium_ac", "heavy_ac", "ultra_ac"]

/-- The placeholder row generate_report appends when ac_phases is empty. -/
def skipRowText : String :=
  "| *(Skipped - validation mode)* | - | - | - | - | - |\n"

/-- if not ac_phases: report += skip row.  Emitted right after the AC table;
there is no counterpart for the battery table. -/
def acPlaceholderText (ac : List (String × PhaseData)) : String :=
  if ac.isEmpty then skipRowText else ""

/-- Title, fenced system-information block and the heading leading into the
per-phase summaries. -/
def titleInfoText (system_info : String) : String :=
  "# Desktop Environment Benchmark Report\n\n## System Information\n\n```\n"
    ++ system_info.trim ++ "\n```\n\n---\n\n## Summary by Phase\n\n"

/-- The battery-phase table section: heading, column header, and one row per
canonical battery phase present. -/
def batterySectionText (bat : List (String × PhaseData)) : String :=
  "### Battery Phases\n" ++ tableHeaderText ++ phaseRowsText bat batteryKeys

/-- The AC-phase table section, followed by the placeholder row exactly when
the AC phase set is empty. -/
def acSectionText (ac : List (String × PhaseData)) : String :=
  "\n### AC Phases\n" ++ tableHeaderText ++ phaseRowsText ac acKeys ++
    acPlaceholderText ac

/-- An AC-side overall-summary mean cell: "N/A" when the underlying sequence
is empty, the formatted mean otherwise (the pre-calculated ac_* strings). -/
def naAvgCell (prec : Nat) (l : List ℚ) : String :=
  if l.isEmpty then "N/A" else formatFixed prec (avg l)

/-- An AC-side overall-summary peak cell: "N/A" when empty. -/
def naPeakCell (prec : Nat) (l : List ℚ) : String :=
  if l.isEmpty then "N/A" else formatFixed prec (peak l)

/-- The Overall Summary table: battery cells are formatted unconditionally
(an empty battery bucket prints as formatted zeros), AC cells fall back to
"N/A" when the AC bucket's sequence is empty. -/
def overallSummaryText (all_battery all_ac : PhaseData) : String :=
  "\n---\n\n## Overall Summary\n\n| Metric | Battery | AC |\n|--------|---------|-----|\n| Avg Power (W) | "
    ++ formatFixed 2 (avg all_battery.power) ++ " | " ++ naAvgCell 2 all_ac.power
    ++ " |\n| Peak Power (W) | " ++ formatFixed 2 (peak all_battery.power)
    ++ " | " ++ naPeakCell 2 all_ac.power
    ++ " |\n| Avg CPU (%) | " ++ formatFixed 1 (avg all_battery.cpu)
    ++ " | " ++ naAvgCell 1 all_ac.cpu
    ++ " |\n| Avg Temp (°C) | " ++ formatFixed 1 (avg all_battery.temp)
    ++ " | " ++ naAvgCell 1 all_ac.temp
    ++ " |\n| Avg Memory (%) | " ++ formatFixed 1 (avg all_battery.mem)
    ++ " | " ++ naAvgCell 1 all_ac.mem
    ++ " |\n| Avg Load (1m) | " ++ formatFixed 2 (avg all_battery.load)
    ++ " | " ++ naAvgCell 2 all_ac.load ++ " |\n"

/-- The I/O Summary table, structured like the overall summary. -/
def ioSummaryText (all_battery all_ac : PhaseData) : String :=
  "\n---\n\n## I/O Summary\n\n| Metric | Battery | AC |\n|--------|---------|-----|\n| Avg Disk Read (MB/s) | "
    ++ formatFixed 2 (avg all_battery.disk_read) ++ " | " ++ naAvgCell 2 all_ac.disk_read
    ++ " |\n| Avg Disk Write (MB/s) | " ++ formatFixed 2 (avg all_battery.disk_write)
    ++ " | " ++ naAvgCell 2 all_ac.disk_write
    ++ " |\n| Avg Net RX (KB/s) | " ++ formatFixed 2 (avg all_battery.net_rx)
    ++ " | " ++ naAvgCell 2 all_ac.net_rx
    ++ " |\n| Avg Net TX (KB/s) | " ++ formatFixed 2 (avg all_battery.net_tx)
    ++ " | " ++ naAvgCell 2 all_ac.net_tx ++ " |\n"

/-- The closing Raw Data section. -/
def rawDataText : String :=
  "\n---\n\n## Raw Data\n\nFull metrics available in: `raw_metrics.csv`\n"

/-- The conditional Comparison Graphs section, appended when dashboard.png
exists next to the output (an external-collaborator check, passed in as a
boolean). -/
def graphsText : String :=
  "\n---\n\n## Comparison Graphs\n\n### Dashboard Overview\n![Dashboard](dashboard.png)\n\n### Individual Metrics\n| Power | CPU | Memory |\n|-------|-----|--------|\n| ![Power](power_comparison.png) | ![CPU](cpu_comparison.png) | ![Memory](mem_comparison.png) |\n"

/-- The full report text for already-filtered battery and AC phase dicts. -/
def reportText (bat ac : List (String × PhaseData)) (system_info : String)
    (dashboard_png : Bool) : String :=
  titleInfoText system_info ++ batterySectionText bat ++ acSectionText ac ++
    overallSummaryText (bucketAll bat) (bucketAll ac) ++
    ioSummaryText (bucketAll bat) (bucketAll ac) ++ rawDataText ++
    (if dashboard_png then graphsText else "")

/-- The rendering stage of generate_report: filter the parsed phases into the
battery and AC dicts (each comprehension raises TypeError on a None phase
key) and assemble the document. -/
def render_report (m : RawPhases) (system_info : String)
    (dashboard_png : Bool) : Except PyExc String :=
  match filterPhasesE "_bat" m with
  | .error e => .error e
  | .ok bat =>
    match filterPhasesE "_ac" m with
    | .error e => .error e
    | .ok ac => .ok (reportText bat ac system_info dashboard_png)

/-- generate_report end to end on in-memory collaborators: parse the table,
then render (the file writes and the dashboard existence check stay outside
the model). -/
def generate_report (t : Table) (system_info : String)
    (dashboard_png : Bool) : Except PyExc String :=
  match parse_csv reportFields t with
  | .error e => .error e
  | .ok m => render_report m system_info dashboard_png

instance {ε α : Type} [DecidableEq ε] [DecidableEq α] : DecidableEq (Except ε α) :=
  fun x y =>
    match x, y with
    | .ok a, .ok b =>
      if h : a = b then .isTrue (by rw [h])
      else .isFalse (fun hc => h (by cases hc; rfl))
    | .error a, .error b =>
      if h : a = b then .isTrue (by rw [h])
      else .isFalse (fun hc => h (by cases hc; rfl))
    | .ok _, .error _ => .isFalse (fun hc => Except.noConfusion hc)
    | .error _, .ok _ => .isFalse (fun hc => Except.noConfusion hc)

/-- The header row of raw_metrics.csv, as generate_report.py expects it. -/
def stdHeader : List String :=
  ["phase", "power_w", "cpu_pct", "cpu_temp_c", "mem_pct", "load_1m",
   "disk_read_mbs", "disk_write_mbs", "net_rx_kbs", "net_tx_kbs"]

/-- Round-trip scenario input: two light_bat rows with power 10 and 20 and
all other required fields constant. -/
def t7 : Table :=
  ⟨stdHeader,
   [["light_bat", "10", "50", "60", "40", "1.0", "5", "5", "10", "10"],
    ["light_bat", "20", "50", "60", "40", "1.0", "5", "5", "10", "10"]]⟩

/-- The phase data the round-trip scenario parses to. -/
def d7 : PhaseData :=
  ⟨[10, 20], [50, 50], [60, 60], [40, 40], [1, 1], [5, 5], [5, 5],
   [10, 10], [10, 10], [], []⟩

/-- A row whose cpu_pct cell is not numeric while its earlier power_w cell
is: the admission-policy probe row. -/
def rowC1 : List String :=
  ["p", "10", "abc", "60", "40", "1", "5", "5", "10", "10"]

/-- Table holding only the admission-policy probe row. -/
def t1 : Table := ⟨stdHeader, [rowC1]⟩

/-- What the probe row leaves behind: the power value admitted before the
cpu_pct conversion failed, every later field untouched. -/
def pdC1 : PhaseData :=
  ⟨[10], [], [], [], [], [], [], [], [], [], []⟩

/-- A table whose only valid row carries an _ac phase (no _bat phases). -/
def t5 : Table :=
  ⟨stdHeader, [["light_ac", "10", "50", "60", "40", "1.0", "5", "5", "10", "10"]]⟩

/-- The phase data the only-AC table parses to. -/
def d5 : PhaseData :=
  ⟨[10], [50], [60], [40], [1], [5], [5], [10], [10], [], []⟩

/-- A row whose first required conversion already fails, so that its phase
appears with every sequence empty. -/
def rowG : List String :=
  ["ghost", "x", "50", "60", "40", "1", "5", "5", "10", "10"]

/-- Table holding only the all-failing row. -/
def tG : Table := ⟨stdHeader, [rowG]⟩

/-- Phase data with one power sample, used to trace bucket membership. -/
def idleData : PhaseData :=
  ⟨[5], [], [], [], [], [], [], [], [], [], []⟩

/-- Extending the empty bucket by a phase dict copies the dict. -/
theorem empty_extendAll (d : PhaseData) : PhaseData.empty.extendAll d = d := by
  cases d
  simp [PhaseData.extendAll, PhaseData.empty]

/-- Folding max from an initial element computes the maximum of the whole
nonempty list. -/
theorem foldl_max_listMax (vs : List ℚ) : ∀ v : ℚ, vs.foldl max v = listMaxQ (v :: vs) := by
  induction vs with
  | nil => intro v; rfl
  | cons x xs ih =>
    intro v
    rw [List.foldl_cons, ih (max v x)]
    cases xs with
    | nil => simp [listMaxQ]
    | cons y ys => simp [listMaxQ, max_assoc]

/-- The dict comprehensions of generate_report succeed on any phase mapping
whose keys are all strings. -/
theorem filterPhasesE_ok_of_some (needle : String) :
    ∀ m : RawPhases, (∀ p ∈ m, p.1.isSome = true) →
    ∃ l, filterPhasesE needle m = .ok l := by
  intro m
  induction m with
  | nil => intro _; exact ⟨[], rfl⟩
  | cons p rest ih =>
    intro h
    obtain ⟨k, d⟩ := p
    cases k with
    | none =>
      have := h (none, d) (by simp)
      simp at this
    | some k0 =>
      obtain ⟨l, hl⟩ := ih (fun q hq => h q (by simp [hq]))
      refine ⟨if strIn needle k0 then (k0, d) :: l else l, ?_⟩
      simp [filterPhasesE, hl]

/-- The battery comprehension is empty when no phase name contains _bat (and
all keys are strings). -/
theorem filterPhasesE_none_of_no_match (needle : String) :
    ∀ m : RawPhases, (∀ p ∈ m, ∃ k, p.1 = some k ∧ strIn needle k = false) →
    filterPhasesE needle m = .ok [] := by
  intro m
  induction m with
  | nil => intro _; rfl
  | cons p rest ih =>
    intro h
    obtain ⟨k, d⟩ := p
    obtain ⟨k0, hk0, hs⟩ := h (k, d) (by simp)
    subst hk0
    rw [show filterPhasesE needle ((some k0, d) :: rest) =
      match filterPhasesE needle rest with
      | .error e => .error e
      | .ok r => .ok (if strIn needle k0 then (k0, d) :: r else r) from rfl]
    rw [ih (fun q hq => h q (by simp [hq]))]
    simp [hs]

/-- lastIdxOf finds an index for every key that occurs in the header. -/
theorem lastIdxOf_mem : ∀ {l : List String} {k : String}, k ∈ l →
    ∃ i, lastIdxOf k l = some i := by
  intro l
  induction l with
  | nil => intro k h; cases h
  | cons a as ih =>
    intro k h
    cases hx : lastIdxOf k as with
    | some i => exact ⟨i + 1, by simp [lastIdxOf, hx]⟩
    | none =>
      have hk : k = a := by
        rcases List.mem_cons.mp h with h1 | h2
        · exact h1
        · obtain ⟨j, hj⟩ := ih h2
          rw [hj] at hx
          cases hx
      subst hk
      exact ⟨0, by simp [lastIdxOf, hx]⟩

/-- Indices lastIdxOf returns are in bounds for the header. -/
theorem lastIdxOf_lt : ∀ {l : List String} {k : String} {i : Nat},
    lastIdxOf k l = some i → i < l.length := by
  intro l
  induction l with
  | nil => intro k i h; cases h
  | cons a as ih =>
    intro k i h
    rw [show lastIdxOf k (a :: as) =
      (match lastIdxOf k as with
       | some j => some (j + 1)
       | none => if a == k then some 0 else none) from rfl] at h
    cases hx : lastIdxOf k as with
    | some j =>
      rw [hx] at h
      cases h
      have := ih hx
      simpa using Nat.succ_lt_succ this
    | none =>
      rw [hx] at h
      by_cases hak : a == k
      · simp [hak] at h
        subst h
        simp
      · simp [hak] at h

/-- Converting a required cell can only raise ValueError or KeyError, never
TypeError, when the row is at least as long as the header. -/
theorem convCell_not_type {hdr cells : List String} {k : String}
    (hlen : hdr.length ≤ cells.length) :
    convCell hdr cells k ≠ .error .typeError := by
  unfold convCell dictGet
  cases hx : lastIdxOf k hdr with
  | none => simp
  | some i =>
    have hi : i < cells.length := Nat.lt_of_lt_of_le (lastIdxOf_lt hx) hlen
    cases hc : cells.get? i with
    | none =>
      rw [List.get?_eq_none] at hc
      omega
    | some s =>
      simp only [hc]
      cases pyFloat s <;> simp

/-- The try body never escapes with an uncaught exception when the row is at
least as long as the header. -/
theorem processFields_ok {hdr cells : List String}
    (hlen : hdr.length ≤ cells.length) :
    ∀ (fs : List (Metric × String)) (d : PhaseData),
    isOkE (processFields hdr cells fs d) = true := by
  intro fs
  induction fs with
  | nil => intro d; rfl
  | cons f rest ih =>
    intro d
    obtain ⟨m, k⟩ := f
    rw [show processFields hdr cells ((m, k) :: rest) d =
      (match convCell hdr cells k with
       | .ok q => processFields hdr cells rest (d.app m q)
       | .error .typeError => .error .typeError
       | .error _ => .ok d) from rfl]
    cases hc : convCell hdr cells k with
    | ok q => exact ih (d.app m q)
    | error e =>
      cases e with
      | typeError => exact absurd hc (convCell_not_type hlen)
      | valueError => rfl
      | keyError => rfl

/-- An ok-valued Except computation yields a value. -/
theorem exists_of_isOkE {α : Type} {e : Except PyExc α} (h : isOkE e = true) :
    ∃ a, e = .ok a := by
  cases e with
  | ok a => exact ⟨a, rfl⟩
  | error _ => cases h

/-- The row loop returns without raising when the header has a phase column
and every surviving row is at least header-length. -/
theorem parseRows_ok {fields : List (Metric × String)} {hdr : List String}
    (hph : "phase" ∈ hdr) :
    ∀ (rows : List (List String)) (acc : RawPhases),
    (∀ r ∈ rows, hdr.length ≤ r.length) →
    isOkE (parseRows fields hdr rows acc) = true := by
  intro rows
  induction rows with
  | nil => intro acc _; rfl
  | cons cells rest ih =>
    intro acc hlen
    obtain ⟨i, hi⟩ := lastIdxOf_mem hph
    have hcell : dictGet hdr cells "phase" = .ok (cells.get? i) := by
      simp [dictGet, hi]
    have hlc : hdr.length ≤ cells.length := hlen cells (by simp)
    obtain ⟨d, hd⟩ := exists_of_isOkE
      (processFields_ok hlc fields ((lookupPh acc (cells.get? i)).getD PhaseData.empty))
    have hstep : parseRows fields hdr (cells :: rest) acc =
        (match processFields hdr cells fields ((lookupPh acc (cells.get? i)).getD PhaseData.empty) with
         | .error e => .error e
         | .ok d => parseRows fields hdr rest (setPh acc (cells.get? i) d)) := by
      rw [show parseRows fields hdr (cells :: rest) acc =
        (match dictGet hdr cells "phase" with
         | .error e => .error e
         | .ok ph =>
           match processFields hdr cells fields ((lookupPh acc ph).getD PhaseData.empty) with
           | .error e => .error e
           | .ok d => parseRows fields hdr rest (setPh acc ph d)) from rfl]
      rw [hcell]
    rw [hstep, hd]
    exact ih (setPh acc (cells.get? i) d) (fun r hr => hlen r (by simp [hr]))

/-- Writing a key makes it readable back. -/
theorem lookupPh_setPh_self : ∀ (m : RawPhases) (k : Option String) (d : PhaseData),
    lookupPh (setPh m k d) k = some d := by
  intro m
  induction m with
  | nil => intro k d; simp [setPh, lookupPh]
  | cons p rest ih =>
    intro k d
    obtain ⟨k0, d0⟩ := p
    by_cases hk : k0 = k
    · subst hk
      simp [setPh, lookupPh]
    · simp [setPh, lookupPh, hk, ih]

/-- Writing any key preserves the presence of every present key. -/
theorem lookupPh_setPh_mono : ∀ (m : RawPhases) (k key : Option String) (d : PhaseData),
    (lookupPh m key).isSome = true → (lookupPh (setPh m k d) key).isSome = true := by
  intro m
  induction m with
  | nil => intro k key d h; simp [lookupPh] at h
  | cons p rest ih =>
    intro k key d h
    obtain ⟨k0, d0⟩ := p
    by_cases hk : k0 = k
    · subst hk
      rw [show setPh ((k0, d0) :: rest) k0 d = (k0, d) :: rest by simp [setPh]]
      by_cases hkey : k0 = key
      · simp [lookupPh, hkey]
      · rw [show lookupPh ((k0, d) :: rest) key = lookupPh rest key by
          simp [lookupPh, hkey]]
        rw [show lookupPh ((k0, d0) :: rest) key = lookupPh rest key by
          simp [lookupPh, hkey]] at h
        exact h
    · rw [show setPh ((k0, d0) :: rest) k d = (k0, d0) :: setPh rest k d by
        simp [setPh, hk]]
      by_cases hkey : k0 = key
      · simp [lookupPh, hkey]
      · rw [show lookupPh ((k0, d0) :: setPh rest k d) key = lookupPh (setPh rest k d) key by
          simp [lookupPh, hkey]]
        rw [show lookupPh ((k0, d0) :: rest) key = lookupPh rest key by
          simp [lookupPh, hkey]] at h
        exact ih k key d h

/-- Invariant of the row loop: present keys stay present, and every processed
row's phase value ends up as a key of the final mapping. -/
theorem parseRows_keys {fields : List (Metric × String)} {hdr : List String} :
    ∀ (rows : List (List String)) (acc m : RawPhases),
    parseRows fields hdr rows acc = .ok m →
    (∀ key, (lookupPh acc key).isSome = true → (lookupPh m key).isSome = true) ∧
    (∀ r ∈ rows, ∃ ph, dictGet hdr r "phase" = .ok ph ∧ (lookupPh m ph).isSome = true) := by
  intro rows
  induction rows with
  | nil =>
    intro acc m h
    cases h
    exact ⟨fun _ hk => hk, fun r hr => absurd hr (List.not_mem_nil r)⟩
  | cons cells rest ih =>
    intro acc m h
    rw [show parseRows fields hdr (cells :: rest) acc =
      (match dictGet hdr cells "phase" with
       | .error e => .error e
       | .ok ph =>
         match processFields hdr cells fields ((lookupPh acc ph).getD PhaseData.empty) with
         | .error e => .error e
         | .ok d => parseRows fields hdr rest (setPh acc ph d)) from rfl] at h
    cases hph : dictGet hdr cells "phase" with
    | error e =>
      rw [hph] at h
      have h2 : (Except.error e : Except PyExc RawPhases) = .ok m := h
      cases h2
    | ok ph =>
      rw [hph] at h
      have h2 : (match processFields hdr cells fields ((lookupPh acc ph).getD PhaseData.empty) with
         | .error e => (.error e : Except PyExc RawPhases)
         | .ok d => parseRows fields hdr rest (setPh acc ph d)) = .ok m := h
      cases hpf : processFields hdr cells fields ((lookupPh acc ph).getD PhaseData.empty) with
      | error e =>
        rw [hpf] at h2
        have h3 : (Except.error e : Except PyExc RawPhases) = .ok m := h2
        cases h3
      | ok d =>
        rw [hpf] at h2
        have h3 : parseRows fields hdr rest (setPh acc ph d) = .ok m := h2
        obtain ⟨mono, cover⟩ := ih (setPh acc ph d) m h3
        refine ⟨fun key hk => mono key (lookupPh_setPh_mono acc ph key d hk), ?_⟩
        intro r hr
        rcases List.mem_cons.mp hr with hr1 | hr2
        · subst hr1
          refine ⟨ph, hph, mono ph ?_⟩
          rw [lookupPh_setPh_self acc ph d]
          rfl
        · exact cover r hr2

/-- splitChar never returns the empty list of pieces. -/
theorem splitChar_ne_nil (sep : Char) : ∀ cs : List Char, splitChar sep cs ≠ [] := by
  intro cs
  cases cs with
  | nil => simp [splitChar]
  | cons c rest =>
    rw [show splitChar sep (c :: rest) =
      (let r := splitChar sep rest
       if c == sep then [] :: r
       else
         match r with
         | h :: t => (c :: h) :: t
         | [] => [[c]]) from rfl]
    by_cases hc : c == sep
    · simp [hc]
    · simp only [hc]
      cases splitChar sep rest <;> simp

/-- The first piece of a split is the text before the first separator. -/
theorem splitChar_head (sep : Char) : ∀ cs : List Char,
    ∃ t, splitChar sep cs = cs.takeWhile (fun c => !(c == sep)) :: t := by
  intro cs
  induction cs with
  | nil => exact ⟨[], rfl⟩
  | cons c rest ih =>
    obtain ⟨t, ht⟩ := ih
    by_cases hc : c == sep
    · refine ⟨splitChar sep rest, ?_⟩
      have hcs : (c == sep) = true := hc
      simp [splitChar, hcs, List.takeWhile, hc]
    · have hcs : (c == sep) = false := by simpa using hc
      refine ⟨t, ?_⟩
      rw [show splitChar sep (c :: rest) =
        (let r := splitChar sep rest
         if c == sep then [] :: r
         else
           match r with
           | h :: t => (c :: h) :: t
           | [] => [[c]]) from rfl]
      simp only [hcs, ht]
      simp [List.takeWhile, hcs]

/-- Piece number one of a split is the text between the first separator and
the second (or the end), provided the text before the first separator is
separator-free. -/
theorem splitChar_getD_one (sep : Char) : ∀ (pre t : List Char),
    (∀ c ∈ pre, (c == sep) = false) →
    (splitChar sep (pre ++ sep :: t)).getD 1 [] = t.takeWhile (fun c => !(c == sep)) := by
  intro pre
  induction pre with
  | nil =>
    intro t _
    obtain ⟨t', ht'⟩ := splitChar_head sep t
    simp only [List.nil_append]
    rw [show splitChar sep (sep :: t) =
      (let r := splitChar sep t
       if sep == sep then [] :: r
       else
         match r with
         | h :: t' => (sep :: h) :: t'
         | [] => [[sep]]) from rfl]
    simp only [beq_self_eq_true, if_true, ht']
    rfl
  | cons c pre' ih =>
    intro t hfree
    have hcs : (c == sep) = false := hfree c (by simp)
    have hrec := ih t (fun x hx => hfree x (by simp [hx]))
    rw [show (c :: pre') ++ sep :: t = c :: (pre' ++ sep :: t) from rfl]
    rw [show splitChar sep (c :: (pre' ++ sep :: t)) =
      (let r := splitChar sep (pre' ++ sep :: t)
       if c == sep then [] :: r
       else
         match r with
         | h :: t' => (c :: h) :: t'
         | [] => [[c]]) from rfl]
    simp only [hcs]
    cases hsp : splitChar sep (pre' ++ sep :: t) with
    | nil => exact absurd hsp (splitChar_ne_nil sep _)
    | cons h t' =>
      rw [hsp] at hrec
      simpa using hrec

/-- betweenColons after a colon-free prefix reads the text up to the next
colon. -/
theorem betweenColons_pre : ∀ (pre t : List Char),
    (∀ c ∈ pre, (c == ':') = false) →
    betweenColons (pre ++ ':' :: t) = t.takeWhile (fun c => !(c == ':')) := by
  intro pre
  induction pre with
  | nil =>
    intro t _
    simp [betweenColons, List.dropWhile]
  | cons c pre' ih =>
    intro t hfree
    have hcs : (c == ':') = false := hfree c (by simp)
    have hrec := ih t (fun x hx => hfree x (by simp [hx]))
    simp only [betweenColons, List.cons_append, List.dropWhile] at hrec ⊢
    simp only [hcs]
    simpa [betweenColons] using hrec

/-- A successful Python prefix test decomposes the string. -/
theorem exists_of_isPrefixB : ∀ (p l : List Char), isPrefixB p l = true →
    ∃ t, l = p ++ t := by
  intro p
  induction p with
  | nil => intro l _; exact ⟨l, rfl⟩
  | cons a as ih =>
    intro l h
    cases l with
    | nil => cases h
    | cons b bs =>
      rw [show isPrefixB (a :: as) (b :: bs) = ((a == b) && isPrefixB as bs) from rfl] at h
      obtain ⟨hab, hpre⟩ := Bool.and_eq_true_iff.mp h
      obtain ⟨t, ht⟩ := ih bs hpre
      have : a = b := by simpa using hab
      exact ⟨t, by rw [this, ht]; rfl⟩

/-- C1, counterexample: a row whose cpu_pct cell fails numeric conversion is
not dropped whole — its earlier, individually valid power_w value has
already been appended to the phase's power sequence when the exception
fires, so the phase admits part of the row. -/
theorem c1_partial_admission_cex :
    parse_csv reportFields t1 = .ok [(some "p", pdC1)] ∧
    pdC1.power = [10] ∧ pdC1.power ≠ [] ∧ pdC1.cpu = [] := by
  with_unfolding_all decide

/-- C1, amended: row admission is prefix-wise, not all-or-nothing.  When the
try body returns normally, the phase dict has been extended by exactly the
values of the longest prefix of the required-field list whose conversions
succeed on this row; the first failing field and everything after it
contribute nothing. -/
theorem c1_prefix_admission : ∀ (hdr cells : List String)
    (fields : List (Metric × String)) (d dOut : PhaseData),
    processFields hdr cells fields d = .ok dOut →
    dOut = appAll d (admittedFields hdr cells fields) := by
  intro hdr cells fields
  induction fields with
  | nil =>
    intro d dOut h
    have h2 : (Except.ok d : Except PyExc PhaseData) = .ok dOut := h
    cases h2
    rfl
  | cons f rest ih =>
    intro d dOut h
    obtain ⟨m, k⟩ := f
    have h2 : (match convCell hdr cells k with
       | .ok q => processFields hdr cells rest (d.app m q)
       | .error .typeError => (.error .typeError : Except PyExc PhaseData)
       | .error _ => .ok d) = .ok dOut := h
    cases hc : convCell hdr cells k with
    | ok q =>
      rw [hc] at h2
      have h3 : processFields hdr cells rest (d.app m q) = .ok dOut := h2
      have ha : admittedFields hdr cells ((m, k) :: rest) =
          (m, q) :: admittedFields hdr cells rest := by
        rw [show admittedFields hdr cells ((m, k) :: rest) =
          (match convCell hdr cells k with
           | .ok q => (m, q) :: admittedFields hdr cells rest
           | .error _ => []) from rfl, hc]
      rw [ha]
      rw [show appAll d ((m, q) :: admittedFields hdr cells rest) =
        appAll (d.app m q) (admittedFields hdr cells rest) from rfl]
      exact ih (d.app m q) dOut h3
    | error e =>
      rw [hc] at h2
      cases e with
      | typeError =>
        exact absurd h2 (fun hx => Except.noConfusion hx)
      | valueError =>
        have h3 : (Except.ok d : Except PyExc PhaseData) = .ok dOut := h2
        cases h3
        have ha : admittedFields hdr cells ((m, k) :: rest) = [] := by
          rw [show admittedFields hdr cells ((m, k) :: rest) =
            (match convCell hdr cells k with
             | .ok q => (m, q) :: admittedFields hdr cells rest
             | .error _ => []) from rfl, hc]
        rw [ha]
        rfl
      | keyError =>
        have h3 : (Except.ok d : Except PyExc PhaseData) = .ok dOut := h2
        cases h3
        have ha : admittedFields hdr cells ((m, k) :: rest) = [] := by
          rw [show admittedFields hdr cells ((m, k) :: rest) =
            (match convCell hdr cells k with
             | .ok q => (m, q) :: admittedFields hdr cells rest
             | .error _ => []) from rfl, hc]
        rw [ha]
        rfl

/-- C1: witness evaluating the amended admission policy on the probe row:
the power value before the failing cpu_pct field is admitted, nothing else. -/
theorem c1_prefix_admission_witness :
    processFields stdHeader rowC1 reportFields PhaseData.empty = .ok pdC1 ∧
    pdC1 = appAll PhaseData.empty (admittedFields stdHeader rowC1 reportFields) :=
  ⟨by with_unfolding_all decide,
   c1_prefix_admission stdHeader rowC1 reportFields PhaseData.empty pdC1
     (by with_unfolding_all decide)⟩

/-- C2, counterexample: the phase "idle" contains neither _bat nor _ac, yet
aggregate_by_power_mode routes its power samples into the AC bucket — the
claim says such a phase contributes to neither bucket. -/
theorem c2_neither_to_ac_cex :
    strIn "_bat" "idle" = false ∧ strIn "_ac" "idle" = false ∧
    (aggregate_by_power_mode [("idle", idleData)]).2.power = [5] ∧
    (aggregate_by_power_mode [("idle", idleData)]).2.power ≠ [] := by
  with_unfolding_all decide

/-- C2, amended: in aggregate_by_power_mode a phase containing _bat goes only
to the battery bucket and every other phase — containing _ac, both
substrings, or neither — goes only to the AC bucket; in generate_report's
bucketing the two filters act independently, so a phase containing _bat
feeds the battery bucket and one containing _ac feeds the AC bucket (a name
with both substrings feeds both, one with neither feeds neither). -/
theorem c2_bucket_membership : ∀ (name : String) (d : PhaseData),
    (aggregate_by_power_mode [(name, d)] =
      if strIn "_bat" name then (d, PhaseData.empty) else (PhaseData.empty, d)) ∧
    (filterPhasesE "_bat" [(some name, d)] =
      .ok (if strIn "_bat" name then [(name, d)] else [])) ∧
    (filterPhasesE "_ac" [(some name, d)] =
      .ok (if strIn "_ac" name then [(name, d)] else [])) ∧
    (bucketAll (if strIn "_bat" name then [(name, d)] else []) =
      if strIn "_bat" name then d else PhaseData.empty) ∧
    (bucketAll (if strIn "_ac" name then [(name, d)] else []) =
      if strIn "_ac" name then d else PhaseData.empty) := by
  intro name d
  cases hb : strIn "_bat" name <;> cases ha : strIn "_ac" name <;>
    simp [aggregate_by_power_mode, filterPhasesE, bucketAll, hb, ha,
      empty_extendAll]

/-- C3, counterexample: parse_csv is not total — on a table whose header has
no phase column, the phase lookup sits outside the try block and its
KeyError propagates instead of the row being skipped. -/
theorem c3_raises_cex :
    parse_csv reportFields ⟨["power_w"], [["1"]]⟩ = .error .keyError := by
  decide

/-- C3, amended: parsing terminates normally — malformed values silently
dropped — for every table whose header contains the phase column and whose
rows are at least header-length (blank rows are also fine, DictReader skips
them); without a phase column the lookup error propagates, and a short row
can surface an uncaught TypeError from float(None). -/
theorem c3_total_parse : ∀ (fields : List (Metric × String)) (t : Table),
    "phase" ∈ t.header →
    (∀ r ∈ t.rows, r.isEmpty = true ∨ t.header.length ≤ r.length) →
    isOkE (parse_csv fields t) = true := by
  intro fields t hph hrows
  unfold parse_csv
  apply parseRows_ok hph
  intro r hr
  rw [List.mem_filter] at hr
  obtain ⟨hmem, hne⟩ := hr
  rcases hrows r hmem with he | hle
  · simp [he] at hne
  · exact hle

/-- C3: witness running the amended totality statement on the round-trip
table. -/
theorem c3_total_parse_witness : isOkE (parse_csv reportFields t7) = true :=
  c3_total_parse reportFields t7 (by decide) (by decide)

/-- C4, confirmed: the mean of an empty value sequence is exactly 0 and the
peak of an empty value sequence is exactly 0 — defined fallbacks, not
errors. -/
theorem c4_empty_mean_peak_zero :
    avg ([] : List ℚ) = 0 ∧ peak ([] : List ℚ) = 0 :=
  ⟨rfl, rfl⟩

/-- C5, counterexample: for the table whose only valid row is an _ac phase,
the battery-phase table section is just the fixed heading and column header
— the explicit placeholder row does not appear in it (it is not even emitted
anywhere, since the AC phase set is nonempty). -/
theorem c5_no_battery_placeholder_cex :
    parse_csv reportFields t5 = .ok [(some "light_ac", d5)] ∧
    filterPhasesE "_bat" [(some "light_ac", d5)] = .ok [] ∧
    isInfixB skipRowText.toList (batterySectionText []).toList = false ∧
    acPlaceholderText [("light_ac", d5)] = "" ∧
    phaseRowsText [("light_ac", d5)] acKeys ≠ "" := by
  with_unfolding_all decide

/-- C5, amended: with only _ac-suffixed phases the battery section simply has
no data rows and no placeholder; the placeholder row belongs to the AC
section and is emitted exactly when the AC phase set is empty, so a
populated AC section carries no placeholder. -/
theorem c5_placeholder_location : ∀ m : RawPhases,
    (∀ p ∈ m, ∃ k, p.1 = some k ∧ strIn "_bat" k = false) →
    filterPhasesE "_bat" m = .ok [] ∧
    batterySectionText [] = "### Battery Phases\n" ++ tableHeaderText ∧
    (∀ ac : List (String × PhaseData), ac ≠ [] → acPlaceholderText ac = "") := by
  intro m h
  refine ⟨filterPhasesE_none_of_no_match "_bat" m h, by decide, ?_⟩
  intro ac hac
  cases ac with
  | nil => exact absurd rfl hac
  | cons a rest => rfl

/-- C5: witness running the amended statement on the parsed only-AC table. -/
theorem c5_placeholder_location_witness :
    filterPhasesE "_bat" [(some "light_ac", d5)] = .ok [] ∧
    acPlaceholderText [("light_ac", d5)] = "" := by
  have h := c5_placeholder_location [(some "light_ac", d5)] (by
    intro p hp
    rw [List.mem_singleton] at hp
    subst hp
    exact ⟨"light_ac", rfl, by decide⟩)
  exact ⟨h.1, h.2.2 [("light_ac", d5)] (by simp)⟩

/-- C6, counterexample: missing battery-side data is not rendered as a
placeholder — the empty battery bucket's average-power cell prints "0.00",
the very string genuine zero data prints, while the AC side prints "N/A";
so the document does not substitute placeholders for all missing data. -/
theorem c6_battery_zero_not_placeholder_cex :
    formatFixed 2 (avg PhaseData.empty.power) = "0.00" ∧
    ("0.00" : String) ≠ "N/A" ∧ ("0.00" : String) ≠ "-" ∧
    formatFixed 2 (avg ([0] : List ℚ)) = "0.00" ∧
    isInfixB "| Avg Power (W) | 0.00 | N/A |\n".toList
      (overallSummaryText PhaseData.empty PhaseData.empty).toList = true := by
  with_unfolding_all decide

/-- C6, amended: rendering is total over any string-keyed phase mapping
(including the empty one) and never raises; missing AC-side data renders as
the explicit "N/A" cells and, when there are no AC phases at all, as the
placeholder table row, while missing battery-side data renders as formatted
zeros rather than placeholders. -/
theorem c6_render_total : ∀ (m : RawPhases) (s : String) (dash : Bool),
    (∀ p ∈ m, p.1.isSome = true) →
    isOkE (render_report m s dash) = true ∧
    (∀ prec : Nat, naAvgCell prec [] = "N/A" ∧ naPeakCell prec [] = "N/A") ∧
    acPlaceholderText [] = skipRowText ∧
    formatFixed 2 (avg ([] : List ℚ)) = "0.00" := by
  intro m s dash h
  obtain ⟨bat, hbat⟩ := filterPhasesE_ok_of_some "_bat" m h
  obtain ⟨ac, hac⟩ := filterPhasesE_ok_of_some "_ac" m h
  refine ⟨?_, fun prec => ⟨rfl, rfl⟩, rfl, by with_unfolding_all decide⟩
  rw [show render_report m s dash =
    (match filterPhasesE "_bat" m with
     | .error e => .error e
     | .ok bat =>
       match filterPhasesE "_ac" m with
       | .error e => .error e
       | .ok ac => .ok (reportText bat ac s dash)) from rfl, hbat, hac]
  rfl

/-- C6: witness rendering a one-phase mapping and the empty-AC placeholder. -/
theorem c6_render_total_witness :
    isOkE (render_report [(some "light_bat", d7)] "sys" true) = true ∧
    acPlaceholderText [] = skipRowText := by
  have h := c6_render_total [(some "light_bat", d7)] "sys" true (by
    intro p hp
    rw [List.mem_singleton] at hp
    subst hp
    rfl)
  exact ⟨h.1, h.2.2.1⟩

/-- C7, confirmed: the two-row light_bat table with power 10 and 20 parses to
one phase whose mean power is exactly 15 and whose peak power is exactly
20. -/
theorem c7_round_trip :
    parse_csv reportFields t7 = .ok [(some "light_bat", d7)] ∧
    avg d7.power = 15 ∧ peak d7.power = 20 := by
  with_unfolding_all decide

/-- C8, counterexample: a chart whose plotted values are all zero gets the
y-axis upper limit 0, not the claimed 1 — the source's guard tests list
emptiness, not all-zero values. -/
theorem c8_all_zero_axis_cex :
    (∀ x ∈ ([0] : List ℚ), x = 0) ∧
    set_ylim_upper [0] = 0 ∧ ((0 : ℚ) ≠ 1) := by
  with_unfolding_all decide

/-- C8, amended: for every nonempty value list — all-zero included — the
upper y-limit is exactly the maximum times 6/5 (so an all-zero chart gets a
degenerate 0 bound), and the fallback 1 applies only to the empty list. -/
theorem c8_axis_scaling :
    (∀ (v : ℚ) (vs : List ℚ),
      set_ylim_upper (v :: vs) = listMaxQ (v :: vs) * (6 / 5)) ∧
    set_ylim_upper [] = 1 := by
  constructor
  · intro v vs
    rw [show set_ylim_upper (v :: vs) = (vs.foldl max v) * (6 / 5) from rfl,
      foldl_max_listMax]
  · rfl

/-- C9, counterexample: on the line "Desktop: A:B" the extracted desktop name
is "A" — the text between the first and second colon — not the claimed
entire remainder "A:B". -/
theorem c9_second_colon_cex :
    (get_run_info "Desktop: A:B").de = "A" ∧
    (get_run_info "Desktop: A:B").de ≠ "A:B" := by
  decide

/-- C9, amended: only lines starting with "Desktop:" or "Run Type:" affect
the extracted record, and the consumed value is the trimmed text between the
first colon and the next colon (or the end of the line), not the whole
remainder. -/
theorem c9_run_info_extraction :
    (∀ (info : RunInfo) (line : List Char),
      isPrefixB "Desktop:".toList line = false →
      isPrefixB "Run Type:".toList line = false →
      runInfoStep info line = info) ∧
    (∀ (info : RunInfo) (line : List Char),
      isPrefixB "Desktop:".toList line = true →
      (runInfoStep info line).de = String.mk (trimL (betweenColons line))) ∧
    (∀ (info : RunInfo) (line : List Char),
      isPrefixB "Run Type:".toList line = true →
      (runInfoStep info line).run_type = String.mk (trimL (betweenColons line))) := by
  refine ⟨?_, ?_, ?_⟩
  · intro info line h1 h2
    unfold runInfoStep
    rw [h1, h2]
    rfl
  · intro info line h
    obtain ⟨t, ht⟩ := exists_of_isPrefixB _ _ h
    subst ht
    have hrt : isPrefixB "Run Type:".toList ("Desktop:".toList ++ t) = false := rfl
    have hv : extractVal ("Desktop:".toList ++ t) =
        String.mk (trimL (t.takeWhile (fun c => !(c == ':')))) := by
      unfold extractVal
      rw [show "Desktop:".toList ++ t = "Desktop".toList ++ ':' :: t from rfl]
      rw [splitChar_getD_one ':' "Desktop".toList t (by decide)]
    have hb : betweenColons ("Desktop:".toList ++ t) =
        t.takeWhile (fun c => !(c == ':')) := by
      rw [show "Desktop:".toList ++ t = "Desktop".toList ++ ':' :: t from rfl]
      exact betweenColons_pre "Desktop".toList t (by decide)
    unfold runInfoStep
    rw [hrt, h]
    show extractVal ("Desktop:".toList ++ t) =
      String.mk (trimL (betweenColons ("Desktop:".toList ++ t)))
    rw [hv, hb]
  · intro info line h
    obtain ⟨t, ht⟩ := exists_of_isPrefixB _ _ h
    subst ht
    have hde : isPrefixB "Desktop:".toList ("Run Type:".toList ++ t) = false := rfl
    have hv : extractVal ("Run Type:".toList ++ t) =
        String.mk (trimL (t.takeWhile (fun c => !(c == ':')))) := by
      unfold extractVal
      rw [show "Run Type:".toList ++ t = "Run Type".toList ++ ':' :: t from rfl]
      rw [splitChar_getD_one ':' "Run Type".toList t (by decide)]
    have hb : betweenColons ("Run Type:".toList ++ t) =
        t.takeWhile (fun c => !(c == ':')) := by
      rw [show "Run Type:".toList ++ t = "Run Type".toList ++ ':' :: t from rfl]
      exact betweenColons_pre "Run Type".toList t (by decide)
    unfold runInfoStep
    rw [hde, h]
    show extractVal ("Run Type:".toList ++ t) =
      String.mk (trimL (betweenColons ("Run Type:".toList ++ t)))
    rw [hv, hb]

/-- C9: witness for the amended extraction on a doubled-colon line and an
unrelated line. -/
theorem c9_run_info_extraction_witness :
    (runInfoStep ⟨"Unknown", "unknown"⟩ "Desktop: A:B".toList).de =
      String.mk (trimL (betweenColons "Desktop: A:B".toList)) ∧
    runInfoStep ⟨"Unknown", "unknown"⟩ "hello".toList = ⟨"Unknown", "unknown"⟩ :=
  ⟨c9_run_info_extraction.2.1 ⟨"Unknown", "unknown"⟩ "Desktop: A:B".toList (by decide),
   c9_run_info_extraction.1 ⟨"Unknown", "unknown"⟩ "hello".toList (by decide) (by decide)⟩

/-- C10, confirmed: whenever parse_csv returns a mapping, every non-blank
row's phase value — including a phase occurring only in rows whose numeric
conversions failed — owns an entry of the mapping (with all fixed metric
keys present by construction, possibly all mapped to empty sequences). -/
theorem c10_phase_entry : ∀ (fields : List (Metric × String)) (t : Table)
    (m : RawPhases), parse_csv fields t = .ok m →
    ∀ r ∈ t.rows, r.isEmpty = false →
    ∃ ph, dictGet t.header r "phase" = .ok ph ∧ (lookupPh m ph).isSome = true := by
  intro fields t m h r hr hne
  have h2 : parseRows fields t.header (t.rows.filter (fun r => !r.isEmpty)) [] = .ok m := h
  obtain ⟨_, cover⟩ := parseRows_keys _ [] m h2
  exact cover r (List.mem_filter.mpr ⟨hr, by simp [hne]⟩)

/-- C10: witness — the "ghost" phase occurs only in a row whose very first
conversion fails, yet the parsed mapping holds an entry for it with every
sequence empty. -/
theorem c10_phase_entry_witness :
    parse_csv reportFields tG = .ok [(some "ghost", PhaseData.empty)] ∧
    (∃ ph, dictGet tG.header rowG "phase" = .ok ph ∧
      (lookupPh [(some "ghost", PhaseData.empty)] ph).isSome = true) :=
  ⟨by with_unfolding_all decide,
   c10_phase_entry reportFields tG [(some "ghost", PhaseData.empty)]
     (by with_unfolding_all decide) rowG (by decide) (by decide)⟩

end PowerBench
